import Mathlib

/-!
Shallow embedding of the `cem` Zed extension binary resolver
(src/extensions/zed/src/lib.rs).

The resolver's collaborators (PATH lookup, filesystem stat, GitHub release
query, platform query, file download, executable-permission setter) are
modelled as fields of a `Host` record; a call to the resolver consumes the
host's responses and the current cached path and produces an `Outcome`:
the result, the new cached path, the filesystem view after the call, and a
log of the side effects it performed (release queries, download attempts,
chmod calls, installation-status updates).

Filesystem modelling: `Host.is_file p` reports whether a regular file
exists at `p` when the call starts (Rust `fs::metadata(p).is_file()`).
A successful `download_file` collaborator call creates a regular file at
its destination (that is the collaborator's contract), so the outcome's
`is_file` adds the destination on that branch; `make_file_executable`
does not change which regular files exist.
-/

namespace Cem

/-- Operating system reported by the host platform query (`zed::Os`). -/
inductive Os
| Mac
| Linux
| Windows
deriving DecidableEq, Repr

/-- CPU architecture reported by the host platform query (`zed::Architecture`). -/
inductive Architecture
| Aarch64
| X8664
| X86
deriving DecidableEq, Repr

/-- Content-type hint passed to the download collaborator (`zed::DownloadedFileType`). -/
inductive DownloadedFileType
| Uncompressed
| Gzip
| GzipTar
| Zip
deriving DecidableEq, Repr

/-- Installation-status values sent to the host notifier
(`zed::LanguageServerInstallationStatus`). -/
inductive InstallationStatus
| CheckingForUpdate
| Downloading
deriving DecidableEq, Repr

/-- One downloadable asset of a GitHub release (`zed::GithubReleaseAsset`). -/
structure GithubReleaseAsset where
  name : String
  download_url : String
deriving DecidableEq, Repr

/-- A GitHub release: version string plus asset list (`zed::GithubRelease`). -/
structure GithubRelease where
  version : String
  assets : List GithubReleaseAsset
deriving DecidableEq, Repr

/-- The command descriptor returned to the host (`zed::Command`); the
environment mapping is a list of key/value pairs. -/
structure Command where
  command : String
  args : List String
  env : List (String × String)
deriving DecidableEq, Repr

/-- The host environment: one response per collaborator consulted during a
single resolution call. -/
structure Host where
  /-- Response of `worktree.which("cem")`. -/
  which_cem : Option String
  /-- Filesystem stat at call start: does a regular file exist at the path?
  (Rust `fs::metadata(path).map_or(false, |stat| stat.is_file())`.) -/
  is_file : String → Bool
  /-- Response of `zed::latest_github_release("bennypowers/cem", ...)`. -/
  latest_release : Except String GithubRelease
  /-- Response of `zed::current_platform()`. -/
  platform : Os × Architecture
  /-- Response of `zed::download_file(url, dest, filetype)`. -/
  download : String → String → DownloadedFileType → Except String Unit
  /-- Response of `zed::make_file_executable(path)`. -/
  make_executable : String → Except String Unit

/-- Log of the side effects a resolution call performed. -/
structure Events where
  /-- Number of `latest_github_release` queries issued. -/
  release_queries : Nat
  /-- Download attempts, as (url, destination, filetype) triples. -/
  downloads : List (String × String × DownloadedFileType)
  /-- Paths passed to `make_file_executable`. -/
  executables_set : List String
  /-- Installation-status notifications, as (language-server id, status) pairs. -/
  status_updates : List (String × InstallationStatus)
deriving DecidableEq, Repr

/-- The empty event log. -/
def noEvents : Events :=
  { release_queries := 0, downloads := [], executables_set := [], status_updates := [] }

/-- The full outcome of one resolution call. -/
structure Outcome (α : Type) where
  result : Except String α
  cached_binary_path : Option String
  is_file : String → Bool
  events : Events

/-- Normalized OS name used in the expected asset name (lib.rs lines 65-69). -/
def osName : Os → String
| Os.Mac => "darwin"
| Os.Linux => "linux"
| Os.Windows => "windows"

/-- Normalized architecture name used in the expected asset name
(lib.rs lines 70-74). -/
def archName : Architecture → String
| Architecture.Aarch64 => "arm64"
| Architecture.X8664 => "amd64"
| Architecture.X86 => "amd64"

/-- The expected asset name `format!("cem-{os}-{arch}")` (lib.rs lines 63-75). -/
def assetNameFor (p : Os × Architecture) : String :=
  "cem-" ++ osName p.1 ++ "-" ++ archName p.2

/-- The remote-fetch branch of `language_server_binary` (lib.rs lines 48-101):
notify CheckingForUpdate, query the latest release, compute the expected
asset name, find the asset, download to `cem-{version}`, mark executable,
cache and return. -/
def downloadBranch (host : Host) (language_server_id : String)
    (cached : Option String) : Outcome String :=
  let ev0 : Events :=
    { release_queries := 1, downloads := [], executables_set := [],
      status_updates := [(language_server_id, InstallationStatus.CheckingForUpdate)] }
  match host.latest_release with
  | Except.error e =>
      { result := Except.error e, cached_binary_path := cached,
        is_file := host.is_file, events := ev0 }
  | Except.ok release =>
    let asset_name := assetNameFor host.platform
    match release.assets.find? (fun asset => asset.name == asset_name) with
    | none =>
        { result := Except.error ("no asset found matching " ++ asset_name),
          cached_binary_path := cached, is_file := host.is_file, events := ev0 }
    | some asset =>
      let binary_path := "cem-" ++ release.version
      let ev1 : Events :=
        { ev0 with
          status_updates :=
            ev0.status_updates ++ [(language_server_id, InstallationStatus.Downloading)],
          downloads :=
            [(asset.download_url, binary_path, DownloadedFileType.Uncompressed)] }
      match host.download asset.download_url binary_path DownloadedFileType.Uncompressed with
      | Except.error e =>
          { result := Except.error ("failed to download file: " ++ e),
            cached_binary_path := cached, is_file := host.is_file, events := ev1 }
      | Except.ok _ =>
        let fs1 : String → Bool := fun p => p == binary_path || host.is_file p
        let ev2 : Events := { ev1 with executables_set := [binary_path] }
        match host.make_executable binary_path with
        | Except.error e =>
            { result := Except.error e, cached_binary_path := cached,
              is_file := fs1, events := ev2 }
        | Except.ok _ =>
            { result := Except.ok binary_path,
              cached_binary_path := some binary_path,
              is_file := fs1, events := ev2 }

/-- `CemExtension::language_server_binary` (lib.rs lines 31-101): PATH
lookup, then session cache (guarded by a stat), then the remote fetch. -/
def language_server_binary (host : Host) (language_server_id : String)
    (cached : Option String) : Outcome String :=
  match host.which_cem with
  | some path =>
      { result := Except.ok path, cached_binary_path := cached,
        is_file := host.is_file, events := noEvents }
  | none =>
    match cached with
    | some path =>
      if host.is_file path then
        { result := Except.ok path, cached_binary_path := cached,
          is_file := host.is_file, events := noEvents }
      else
        downloadBranch host language_server_id cached
    | none => downloadBranch host language_server_id cached

/-- `CemExtension::language_server_command` (lib.rs lines 15-27): resolve
the binary, then wrap it in a command with fixed args `["lsp"]` and an
empty environment. -/
def language_server_command (host : Host) (language_server_id : String)
    (cached : Option String) : Outcome Command :=
  let o := language_server_binary host language_server_id cached
  match o.result with
  | Except.error e =>
      { result := Except.error e, cached_binary_path := o.cached_binary_path,
        is_file := o.is_file, events := o.events }
  | Except.ok binary_path =>
      { result := Except.ok
          { command := binary_path, args := ["lsp"], env := [] },
        cached_binary_path := o.cached_binary_path,
        is_file := o.is_file, events := o.events }

/-- A host whose PATH lookup finds `cem`; every other collaborator fails,
so any network activity would be visible as an error. -/
def hostOnPath : Host :=
  { which_cem := some "/usr/local/bin/cem",
    is_file := fun p => p == "/usr/local/bin/cem",
    latest_release := Except.error "offline",
    platform := (Os.Linux, Architecture.X8664),
    download := fun _ _ _ => Except.error "offline",
    make_executable := fun _ => Except.error "offline" }

/-- A host with no PATH match, a filesystem on which only `/tmp/cem-v1.0.0`
is a regular file, and failing network collaborators. -/
def hostCacheOnly : Host :=
  { which_cem := none,
    is_file := fun p => p == "/tmp/cem-v1.0.0",
    latest_release := Except.error "offline",
    platform := (Os.Linux, Architecture.X8664),
    download := fun _ _ _ => Except.error "offline",
    make_executable := fun _ => Except.error "offline" }

/-- The release used by the spec's end-to-end scenario: version `v1.2.3`
with a darwin-arm64 asset and a linux-amd64 asset. -/
def releaseV123 : GithubRelease :=
  { version := "v1.2.3",
    assets :=
      [ { name := "cem-darwin-arm64", download_url := "https://example.com/darwin" },
        { name := "cem-linux-amd64", download_url := "https://example.com/linux" } ] }

/-- A host realizing the spec's end-to-end scenario: empty PATH, empty
filesystem, release `v1.2.3` available, download and chmod succeed. -/
def hostFetch : Host :=
  { which_cem := none,
    is_file := fun _ => false,
    latest_release := Except.ok releaseV123,
    platform := (Os.Linux, Architecture.X8664),
    download := fun _ _ _ => Except.ok (),
    make_executable := fun _ => Except.ok () }

/-- A host with no PATH match and a release whose assets match no platform:
the platform is Windows/Aarch64 but the release only ships darwin-arm64 and
linux-amd64 assets. -/
def hostNoAsset : Host :=
  { which_cem := none,
    is_file := fun _ => false,
    latest_release := Except.ok releaseV123,
    platform := (Os.Windows, Architecture.Aarch64),
    download := fun _ _ _ => Except.ok (),
    make_executable := fun _ => Except.ok () }

/-- The end-to-end scenario host, but with a failing download collaborator. -/
def hostDlErr : Host :=
  { hostFetch with download := fun _ _ _ => Except.error "connection reset" }

/-- The end-to-end scenario host, but with a failing permission setter. -/
def hostExecErr : Host :=
  { hostFetch with make_executable := fun _ => Except.error "permission denied" }

/-- C1: if the PATH lookup (`worktree.which("cem")`) returns a path,
`resolve` returns exactly that path, performs no release query and no
download, and leaves the cached binary path unchanged. -/
theorem c1_path_short_circuits (host : Host) (i : String) (cached : Option String)
    (p : String) (h : host.which_cem = some p) :
    (language_server_binary host i cached).result = Except.ok p ∧
    (language_server_binary host i cached).events.release_queries = 0 ∧
    (language_server_binary host i cached).events.downloads = [] ∧
    (language_server_binary host i cached).cached_binary_path = cached := by
  simp [language_server_binary, h, noEvents]

/-- Witness for C1: a concrete host whose PATH lookup finds the binary. -/
theorem c1_path_short_circuits_witness :
    (language_server_binary hostOnPath "cem" none).result
        = Except.ok "/usr/local/bin/cem" ∧
    (language_server_binary hostOnPath "cem" none).events.release_queries = 0 ∧
    (language_server_binary hostOnPath "cem" none).events.downloads = [] ∧
    (language_server_binary hostOnPath "cem" none).cached_binary_path = none :=
  c1_path_short_circuits hostOnPath "cem" none "/usr/local/bin/cem" rfl

/-- C2: with no PATH match and a cached path present, a stat reporting a
regular file makes `resolve` return the cached path with no release query
and no download; a failing stat makes the call fall through to the
remote-fetch branch (so the cache branch produces no result). -/
theorem c2_cache_branch (host : Host) (i p : String)
    (hwhich : host.which_cem = none) :
    (host.is_file p = true →
      (language_server_binary host i (some p)).result = Except.ok p ∧
      (language_server_binary host i (some p)).events.release_queries = 0 ∧
      (language_server_binary host i (some p)).events.downloads = []) ∧
    (host.is_file p = false →
      language_server_binary host i (some p) = downloadBranch host i (some p)) := by
  constructor <;> intro hf <;> simp [language_server_binary, hwhich, hf, noEvents]

/-- Witness for C2: a concrete host where the cached file exists (hit) and
a concrete stale cached path (fall-through). -/
theorem c2_cache_branch_witness :
    ((language_server_binary hostCacheOnly "cem" (some "/tmp/cem-v1.0.0")).result
        = Except.ok "/tmp/cem-v1.0.0" ∧
     (language_server_binary hostCacheOnly "cem"
        (some "/tmp/cem-v1.0.0")).events.release_queries = 0 ∧
     (language_server_binary hostCacheOnly "cem"
        (some "/tmp/cem-v1.0.0")).events.downloads = []) ∧
    language_server_binary hostCacheOnly "cem" (some "/tmp/stale")
        = downloadBranch hostCacheOnly "cem" (some "/tmp/stale") :=
  ⟨(c2_cache_branch hostCacheOnly "cem" "/tmp/cem-v1.0.0" rfl).1 (by decide),
   (c2_cache_branch hostCacheOnly "cem" "/tmp/stale" rfl).2 (by decide)⟩

/-- C4: in the remote-fetch branch, when no asset of the release is an
exact match of the computed expected asset name, the call fails with an
error naming that expected asset name and attempts no download. -/
theorem c4_no_asset_error (host : Host) (i : String) (cached : Option String)
    (r : GithubRelease) (hrel : host.latest_release = Except.ok r)
    (hmiss : ∀ a ∈ r.assets, a.name ≠ assetNameFor host.platform) :
    (downloadBranch host i cached).result
        = Except.error ("no asset found matching " ++ assetNameFor host.platform) ∧
    (downloadBranch host i cached).events.downloads = [] := by
  have hfind : r.assets.find? (fun a => a.name == assetNameFor host.platform) = none := by
    rw [List.find?_eq_none]
    intro a ha
    simp [hmiss a ha]
  simp [downloadBranch, hrel, hfind]

/-- Witness for C4: Windows/Aarch64 platform against a release that only
ships darwin-arm64 and linux-amd64 assets. -/
theorem c4_no_asset_error_witness :
    (downloadBranch hostNoAsset "cem" none).result
        = Except.error ("no asset found matching " ++ assetNameFor hostNoAsset.platform) ∧
    (downloadBranch hostNoAsset "cem" none).events.downloads = [] :=
  c4_no_asset_error hostNoAsset "cem" none releaseV123 rfl (by decide)

/-- C6: every successful `language_server_command` call returns a command
whose argument list is exactly `["lsp"]` and whose environment is empty,
for every host, id and cache state. -/
theorem c6_fixed_args_env (host : Host) (i : String) (cached : Option String)
    (cmd : Command)
    (h : (language_server_command host i cached).result = Except.ok cmd) :
    cmd.args = ["lsp"] ∧ cmd.env = [] := by
  simp only [language_server_command] at h
  cases hr : (language_server_binary host i cached).result with
  | error e => rw [hr] at h; simp at h
  | ok p =>
    rw [hr] at h
    simp only [Except.ok.injEq] at h
    subst h
    exact ⟨rfl, rfl⟩

/-- Witness for C6: the concrete command produced through the PATH branch. -/
theorem c6_fixed_args_env_witness :
    ({ command := "/usr/local/bin/cem", args := ["lsp"], env := [] } : Command).args
        = ["lsp"] ∧
    ({ command := "/usr/local/bin/cem", args := ["lsp"], env := [] } : Command).env
        = [] :=
  c6_fixed_args_env hostOnPath "cem" none
    { command := "/usr/local/bin/cem", args := ["lsp"], env := [] } rfl

/-- C3: the expected asset name is `"cem-" ++ os ++ "-" ++ arch` with os in
darwin/linux/windows and arch arm64 for Aarch64, amd64 for X8664 and X86;
and on Linux/X8664 against a release shipping `cem-darwin-arm64` and
`cem-linux-amd64`, the remote-fetch branch selects the `cem-linux-amd64`
asset's URL for download. -/
theorem c3_asset_name_selection :
    (∀ os arch, assetNameFor (os, arch) = "cem-" ++ osName os ++ "-" ++ archName arch) ∧
    (osName Os.Mac = "darwin" ∧ osName Os.Linux = "linux" ∧ osName Os.Windows = "windows") ∧
    (archName Architecture.Aarch64 = "arm64" ∧ archName Architecture.X8664 = "amd64" ∧
      archName Architecture.X86 = "amd64") ∧
    (∀ (host : Host) (i v u1 u2 : String) (cached : Option String),
      host.platform = (Os.Linux, Architecture.X8664) →
      host.latest_release = Except.ok
        { version := v,
          assets := [ { name := "cem-darwin-arm64", download_url := u1 },
                      { name := "cem-linux-amd64", download_url := u2 } ] } →
      (downloadBranch host i cached).events.downloads.map (fun d => d.1) = [u2]) := by
  refine ⟨fun os arch => rfl, ⟨rfl, rfl, rfl⟩, ⟨rfl, rfl, rfl⟩, ?_⟩
  intro host i v u1 u2 cached hplat hrel
  have hname : assetNameFor host.platform = "cem-linux-amd64" := by rw [hplat]; rfl
  have h1 : (("cem-darwin-arm64" : String) == "cem-linux-amd64") = false := by decide
  have h2 : (("cem-linux-amd64" : String) == "cem-linux-amd64") = true := by decide
  simp only [downloadBranch, hrel, hname, List.find?, h1, h2]
  rcases hdl : host.download u2 ("cem-" ++ v) DownloadedFileType.Uncompressed with e | u
  · simp [hdl]
  · rcases hex : host.make_executable ("cem-" ++ v) with e | u <;> simp [hdl, hex]

/-- Witness for C3: the end-to-end host downloads the linux asset URL. -/
theorem c3_asset_name_selection_witness :
    (downloadBranch hostFetch "cem" none).events.downloads.map (fun d => d.1)
        = ["https://example.com/linux"] :=
  c3_asset_name_selection.2.2.2 hostFetch "cem" "v1.2.3"
    "https://example.com/darwin" "https://example.com/linux" none rfl rfl

/-- C5: a successful remote fetch downloads to `"cem-" ++ version` with the
Uncompressed filetype, marks that path executable, stores it in the session
cache and returns it; the resulting command is that path with args
`["lsp"]` and an empty environment. -/
theorem c5_fresh_download (host : Host) (i : String) (cached : Option String)
    (r : GithubRelease) (asset : GithubReleaseAsset)
    (hwhich : host.which_cem = none)
    (hcache : cached = none ∨ ∃ p, cached = some p ∧ host.is_file p = false)
    (hrel : host.latest_release = Except.ok r)
    (hfind : r.assets.find? (fun a => a.name == assetNameFor host.platform) = some asset)
    (hdl : host.download asset.download_url ("cem-" ++ r.version)
        DownloadedFileType.Uncompressed = Except.ok ())
    (hex : host.make_executable ("cem-" ++ r.version) = Except.ok ()) :
    (language_server_binary host i cached).result = Except.ok ("cem-" ++ r.version) ∧
    (language_server_binary host i cached).events.downloads
        = [(asset.download_url, "cem-" ++ r.version, DownloadedFileType.Uncompressed)] ∧
    (language_server_binary host i cached).events.executables_set = ["cem-" ++ r.version] ∧
    (language_server_binary host i cached).cached_binary_path = some ("cem-" ++ r.version) ∧
    (language_server_command host i cached).result
        = Except.ok { command := "cem-" ++ r.version, args := ["lsp"], env := [] } := by
  have hb : language_server_binary host i cached = downloadBranch host i cached := by
    rcases hcache with rfl | ⟨p, rfl, hf⟩
    · simp [language_server_binary, hwhich]
    · simp [language_server_binary, hwhich, hf]
  refine ⟨?_, ?_, ?_, ?_, ?_⟩ <;>
    simp [language_server_command, hb, downloadBranch, hrel, hfind, hdl, hex]

/-- Witness for C5: the spec's end-to-end scenario — release `v1.2.3`,
destination literally `cem-v1.2.3`, final command
`{command: cem-v1.2.3, args: [lsp], env: empty}`. -/
theorem c5_fresh_download_witness :
    (language_server_binary hostFetch "cem" none).result = Except.ok "cem-v1.2.3" ∧
    (language_server_binary hostFetch "cem" none).events.downloads
        = [("https://example.com/linux", "cem-v1.2.3", DownloadedFileType.Uncompressed)] ∧
    (language_server_binary hostFetch "cem" none).events.executables_set = ["cem-v1.2.3"] ∧
    (language_server_binary hostFetch "cem" none).cached_binary_path = some "cem-v1.2.3" ∧
    (language_server_command hostFetch "cem" none).result
        = Except.ok { command := "cem-v1.2.3", args := ["lsp"], env := [] } :=
  c5_fresh_download hostFetch "cem" none releaseV123
    { name := "cem-linux-amd64", download_url := "https://example.com/linux" }
    rfl (Or.inl rfl) rfl rfl rfl rfl

/-- C7: on the remote-fetch path, a release-query failure propagates its
message unchanged, a download failure is wrapped with the prefix
`failed to download file: ` keeping the underlying message, and a
permission-set failure propagates its message unchanged. -/
theorem c7_error_propagation (host : Host) (i : String) (cached : Option String)
    (hwhich : host.which_cem = none)
    (hcache : cached = none ∨ ∃ p, cached = some p ∧ host.is_file p = false) :
    (∀ e, host.latest_release = Except.error e →
      (language_server_binary host i cached).result = Except.error e) ∧
    (∀ e r asset, host.latest_release = Except.ok r →
      r.assets.find? (fun a => a.name == assetNameFor host.platform) = some asset →
      host.download asset.download_url ("cem-" ++ r.version) DownloadedFileType.Uncompressed
          = Except.error e →
      (language_server_binary host i cached).result
          = Except.error ("failed to download file: " ++ e)) ∧
    (∀ e r asset, host.latest_release = Except.ok r →
      r.assets.find? (fun a => a.name == assetNameFor host.platform) = some asset →
      host.download asset.download_url ("cem-" ++ r.version) DownloadedFileType.Uncompressed
          = Except.ok () →
      host.make_executable ("cem-" ++ r.version) = Except.error e →
      (language_server_binary host i cached).result = Except.error e) := by
  have hb : language_server_binary host i cached = downloadBranch host i cached := by
    rcases hcache with rfl | ⟨p, rfl, hf⟩
    · simp [language_server_binary, hwhich]
    · simp [language_server_binary, hwhich, hf]
  refine ⟨?_, ?_, ?_⟩
  · intro e hrel
    simp [hb, downloadBranch, hrel]
  · intro e r asset hrel hfind hdl
    simp [hb, downloadBranch, hrel, hfind, hdl]
  · intro e r asset hrel hfind hdl hex
    simp [hb, downloadBranch, hrel, hfind, hdl, hex]

/-- Witness for C7: three concrete failing hosts — release query offline,
download reset, chmod denied. -/
theorem c7_error_propagation_witness :
    (language_server_binary hostCacheOnly "cem" none).result = Except.error "offline" ∧
    (language_server_binary hostDlErr "cem" none).result
        = Except.error ("failed to download file: " ++ "connection reset") ∧
    (language_server_binary hostExecErr "cem" none).result
        = Except.error "permission denied" :=
  ⟨(c7_error_propagation hostCacheOnly "cem" none rfl (Or.inl rfl)).1 "offline" rfl,
   (c7_error_propagation hostDlErr "cem" none rfl (Or.inl rfl)).2.1 "connection reset"
      releaseV123 { name := "cem-linux-amd64", download_url := "https://example.com/linux" }
      rfl rfl rfl,
   (c7_error_propagation hostExecErr "cem" none rfl (Or.inl rfl)).2.2 "permission denied"
      releaseV123 { name := "cem-linux-amd64", download_url := "https://example.com/linux" }
      rfl rfl rfl rfl⟩

/-- The remote-fetch branch either leaves the cached path unchanged, or
returns some path `p`, caches exactly `p`, after a download attempt and a
chmod of `p`. -/
lemma downloadBranch_cached_path (host : Host) (i : String) (cached : Option String) :
    (downloadBranch host i cached).cached_binary_path = cached ∨
    ∃ p, (downloadBranch host i cached).result = Except.ok p ∧
      (downloadBranch host i cached).cached_binary_path = some p ∧
      (downloadBranch host i cached).events.downloads ≠ [] ∧
      (downloadBranch host i cached).events.executables_set = [p] := by
  simp only [downloadBranch]
  cases hrel : host.latest_release with
  | error e => simp
  | ok r =>
    cases hfind : r.assets.find? (fun asset => asset.name == assetNameFor host.platform) with
    | none => simp [hfind]
    | some asset =>
      cases hdl : host.download asset.download_url ("cem-" ++ r.version)
          DownloadedFileType.Uncompressed with
      | error e => simp [hfind, hdl]
      | ok u =>
        cases hex : host.make_executable ("cem-" ++ r.version) with
        | error e => simp [hfind, hdl, hex]
        | ok u =>
          simp only [hfind, hdl, hex]
          right
          exact ⟨"cem-" ++ r.version, rfl, rfl, by simp, rfl⟩

/-- If the remote-fetch branch returns a path, the post-call filesystem has
a regular file there (by the download collaborator's contract). -/
lemma downloadBranch_is_file (host : Host) (i : String) (cached : Option String) :
    ∀ p, (downloadBranch host i cached).result = Except.ok p →
      (downloadBranch host i cached).is_file p = true := by
  simp only [downloadBranch]
  cases hrel : host.latest_release with
  | error e => simp
  | ok r =>
    cases hfind : r.assets.find? (fun asset => asset.name == assetNameFor host.platform) with
    | none => simp [hfind]
    | some asset =>
      cases hdl : host.download asset.download_url ("cem-" ++ r.version)
          DownloadedFileType.Uncompressed with
      | error e => simp [hfind, hdl]
      | ok u =>
        cases hex : host.make_executable ("cem-" ++ r.version) with
        | error e => simp [hfind, hdl, hex]
        | ok u =>
          simp only [hfind, hdl, hex]
          intro p h
          simp only [Except.ok.injEq] at h
          subst h
          simp

/-- The command result is the binary-resolution result with the fixed
args/env wrapper mapped over it. -/
lemma language_server_command_result (host : Host) (i : String) (cached : Option String) :
    (language_server_command host i cached).result
      = (language_server_binary host i cached).result.map
          (fun bp => { command := bp, args := ["lsp"], env := [] }) := by
  simp only [language_server_command]
  rcases (language_server_binary host i cached).result with e | bp <;> simp [Except.map]

/-- C8: the cached path is mutated only by a fully successful remote fetch:
every error return and every download-free return (PATH hit or cache hit)
leaves it unchanged, and any mutation stores exactly the returned path
after a download attempt and a chmod. -/
theorem c8_cache_mutation (host : Host) (i : String) (cached : Option String) :
    (∀ e, (language_server_binary host i cached).result = Except.error e →
      (language_server_binary host i cached).cached_binary_path = cached) ∧
    ((language_server_binary host i cached).events.downloads = [] →
      (language_server_binary host i cached).cached_binary_path = cached) ∧
    ((language_server_binary host i cached).cached_binary_path = cached ∨
      ∃ p, (language_server_binary host i cached).result = Except.ok p ∧
        (language_server_binary host i cached).cached_binary_path = some p ∧
        (language_server_binary host i cached).events.downloads ≠ [] ∧
        (language_server_binary host i cached).events.executables_set = [p]) := by
  have hcore : (language_server_binary host i cached).cached_binary_path = cached ∨
      ∃ p, (language_server_binary host i cached).result = Except.ok p ∧
        (language_server_binary host i cached).cached_binary_path = some p ∧
        (language_server_binary host i cached).events.downloads ≠ [] ∧
        (language_server_binary host i cached).events.executables_set = [p] := by
    rcases hw : host.which_cem with _ | p
    · rcases cached with _ | q
      · simpa [language_server_binary, hw] using downloadBranch_cached_path host i none
      · cases hf : host.is_file q
        · simpa [language_server_binary, hw, hf] using
            downloadBranch_cached_path host i (some q)
        · left
          simp [language_server_binary, hw, hf]
    · left
      simp [language_server_binary, hw]
  refine ⟨?_, ?_, hcore⟩
  · intro e he
    rcases hcore with h | ⟨p, hp, _, _, _⟩
    · exact h
    · rw [he] at hp
      exact Except.noConfusion hp
  · intro hnd
    rcases hcore with h | ⟨p, _, _, hne, _⟩
    · exact h
    · exact absurd hnd hne

/-- Witness for C8: the PATH-hit host performs no download and leaves the
(empty) cache unchanged. -/
theorem c8_cache_mutation_witness :
    (language_server_binary hostOnPath "cem" none).cached_binary_path = none :=
  (c8_cache_mutation hostOnPath "cem" none).2.1 rfl

/-- C9: whenever resolution returns a path, the post-call filesystem has a
regular file at that path — checked by the stat in the cache branch,
guaranteed by the download contract in the fetch branch, and assumed of
the PATH-lookup collaborator. -/
theorem c9_returned_path_is_file (host : Host) (i : String) (cached : Option String)
    (p : String)
    (hwhich : ∀ q, host.which_cem = some q → host.is_file q = true)
    (h : (language_server_binary host i cached).result = Except.ok p) :
    (language_server_binary host i cached).is_file p = true := by
  rcases hw : host.which_cem with _ | w
  · rcases cached with _ | q
    · have hb : language_server_binary host i none = downloadBranch host i none := by
        simp [language_server_binary, hw]
      rw [hb] at h ⊢
      exact downloadBranch_is_file host i none p h
    · cases hf : host.is_file q
      · have hb : language_server_binary host i (some q)
            = downloadBranch host i (some q) := by
          simp [language_server_binary, hw, hf]
        rw [hb] at h ⊢
        exact downloadBranch_is_file host i (some q) p h
      · simp only [language_server_binary, hw, hf, if_true] at h ⊢
        simp only [Except.ok.injEq] at h
        subst h
        exact hf
  · simp only [language_server_binary, hw] at h ⊢
    simp only [Except.ok.injEq] at h
    subst h
    exact hwhich w hw

/-- Witness for C9: the PATH-hit host, whose found binary is a regular
file. -/
theorem c9_returned_path_is_file_witness :
    (language_server_binary hostOnPath "cem" none).is_file "/usr/local/bin/cem" = true :=
  c9_returned_path_is_file hostOnPath "cem" none "/usr/local/bin/cem"
    (by intro q hq; injection hq with hq; subst hq; rfl) rfl

/-- C10: the language-server identifier influences only the
installation-status notifications: two calls differing only in the id
agree on the result, the cached path, the filesystem, the release queries,
the downloads, the chmod calls, the notified statuses, and the final
command. -/
theorem c10_id_noninterference (host : Host) (cached : Option String) (i j : String) :
    (language_server_binary host i cached).result
        = (language_server_binary host j cached).result ∧
    (language_server_binary host i cached).cached_binary_path
        = (language_server_binary host j cached).cached_binary_path ∧
    (language_server_binary host i cached).is_file
        = (language_server_binary host j cached).is_file ∧
    (language_server_binary host i cached).events.release_queries
        = (language_server_binary host j cached).events.release_queries ∧
    (language_server_binary host i cached).events.downloads
        = (language_server_binary host j cached).events.downloads ∧
    (language_server_binary host i cached).events.executables_set
        = (language_server_binary host j cached).events.executables_set ∧
    (language_server_binary host i cached).events.status_updates.map Prod.snd
        = (language_server_binary host j cached).events.status_updates.map Prod.snd ∧
    (language_server_command host i cached).result
        = (language_server_command host j cached).result := by
  have hdb : ∀ c, (downloadBranch host i c).result = (downloadBranch host j c).result ∧
      (downloadBranch host i c).cached_binary_path
          = (downloadBranch host j c).cached_binary_path ∧
      (downloadBranch host i c).is_file = (downloadBranch host j c).is_file ∧
      (downloadBranch host i c).events.release_queries
          = (downloadBranch host j c).events.release_queries ∧
      (downloadBranch host i c).events.downloads
          = (downloadBranch host j c).events.downloads ∧
      (downloadBranch host i c).events.executables_set
          = (downloadBranch host j c).events.executables_set ∧
      (downloadBranch host i c).events.status_updates.map Prod.snd
          = (downloadBranch host j c).events.status_updates.map Prod.snd := by
    intro c
    simp only [downloadBranch]
    cases hrel : host.latest_release with
    | error e => simp
    | ok r =>
      cases hfind : r.assets.find? (fun asset => asset.name == assetNameFor host.platform) with
      | none => simp [hfind]
      | some asset =>
        cases hdl : host.download asset.download_url ("cem-" ++ r.version)
            DownloadedFileType.Uncompressed with
        | error e => simp [hfind, hdl]
        | ok u =>
          cases hex : host.make_executable ("cem-" ++ r.version) with
          | error e => simp [hfind, hdl, hex]
          | ok u => simp [hfind, hdl, hex]
  have hmain : (language_server_binary host i cached).result
        = (language_server_binary host j cached).result ∧
      (language_server_binary host i cached).cached_binary_path
          = (language_server_binary host j cached).cached_binary_path ∧
      (language_server_binary host i cached).is_file
          = (language_server_binary host j cached).is_file ∧
      (language_server_binary host i cached).events.release_queries
          = (language_server_binary host j cached).events.release_queries ∧
      (language_server_binary host i cached).events.downloads
          = (language_server_binary host j cached).events.downloads ∧
      (language_server_binary host i cached).events.executables_set
          = (language_server_binary host j cached).events.executables_set ∧
      (language_server_binary host i cached).events.status_updates.map Prod.snd
          = (language_server_binary host j cached).events.status_updates.map Prod.snd := by
    rcases hw : host.which_cem with _ | p
    · rcases cached with _ | q
      · simpa [language_server_binary, hw] using hdb none
      · cases hf : host.is_file q
        · simpa [language_server_binary, hw, hf] using hdb (some q)
        · simp [language_server_binary, hw, hf]
    · simp [language_server_binary, hw]
  refine ⟨hmain.1, hmain.2.1, hmain.2.2.1, hmain.2.2.2.1, hmain.2.2.2.2.1,
    hmain.2.2.2.2.2.1, hmain.2.2.2.2.2.2, ?_⟩
  rw [language_server_command_result, language_server_command_result, hmain.1]

end Cem
